import Mathlib

/-!
# Verification of the go-zabbix-api JSON-RPC core (src/base.go)

Shallow embedding of the client library's protocol engine: the request
envelope codec, the call engine (`callBytes`, `Call`, `CallWithError`,
`CallWithErrorParse`), the session manager (`Login`, `Version`), the
version parser (`parseVersionString`) and construction (`NewAPI`).

Go machine integers are modelled as `Int` with explicit two's-complement
wrapping (`wrap32` for the `int32` correlation-id counter, `wrap64` for
`int64` arithmetic in the version parser).  JSON documents are modelled
by an inductive `Json` value type; the HTTP transport is an oracle
function from the outbound request to a wire-level result.  Go panics
(the `response.Result.(string)` type assertions) are modelled by an
explicit `panicked` outcome constructor.
-/

namespace Zabbix

/-- JSON values, the abstraction of serialized bytes exchanged on the wire.
Numbers are restricted to integers, which is all this client produces. -/
inductive Json where
  | null
  | bool (b : Bool)
  | num (n : Int)
  | str (s : String)
  | arr (elems : List Json)
  | obj (fields : List (String × Json))

/-- Field lookup in a JSON object; `none` on non-objects and missing keys. -/
def Json.lookup : Json → String → Option Json
  | .obj fields, k => fields.lookup k
  | _, _ => none

/-- The `Error` struct of base.go: an API-level error carried in a response. -/
structure ZError where
  code : Int
  message : String
  data : String
deriving DecidableEq

/-- A response body, as seen through `json.Unmarshal` into the envelope
structs: either bytes that fail to decode as an envelope, or a decoded
envelope.  `result := none` models an absent `result` field (a nil
`json.RawMessage`), distinct from an explicit JSON `null`. -/
inductive WireBody where
  | malformed
  | envelope (jsonrpc : String) (error : Option ZError) (result : Option Json) (id : Int)

/-- What the HTTP client returns for one exchange. -/
inductive WireResult where
  | transportError
  | body (b : WireBody)

/-- A Go value passed as `params`: either JSON-serializable (with its
serialization) or a value `json.Marshal` rejects (func, channel, ...). -/
inductive GoParams where
  | json (j : Json)
  | unserializable

/-- The outbound HTTP request built by `callBytes`: URL, the headers it
sets, and the marshalled request envelope as the body. -/
structure HttpRequest where
  url : String
  contentType : String
  userAgent : String
  authorization : Option String
  body : Json

/-- The HTTP transport oracle: what the server/network does with a request. -/
def Transport : Type := HttpRequest → WireResult

/-- Mutable state of the `API` struct: auth token, correlation-id counter,
and the fields of `Config` the engine reads. -/
structure ApiState where
  auth : String
  id : Int
  url : String
  userAgent : String
  version : Int
  serialize : Bool
deriving DecidableEq

/-- Two's-complement wrap to `int32`, the type of the correlation counter. -/
def wrap32 (x : Int) : Int := (x + 2147483648) % 4294967296 - 2147483648

/-- Two's-complement wrap to `int64`, the type used by the version parser. -/
def wrap64 (x : Int) : Int :=
  (x + 9223372036854775808) % 18446744073709551616 - 9223372036854775808

/-- `json.Marshal` of the `request` struct of base.go.  The `auth` field
has the `omitempty` tag, so it is omitted when the token is empty. -/
def requestBody (method : String) (params : Json) (auth : String) (id : Int) : Json :=
  Json.obj
    ([("jsonrpc", Json.str "2.0"), ("method", Json.str method), ("params", params)]
      ++ (if auth = "" then [] else [("auth", Json.str auth)])
      ++ [("id", Json.num id)])

/-- `json.Marshal` on the params value. -/
def marshalParams : GoParams → Option Json
  | .json j => some j
  | .unserializable => none

/-- Error classes a call can surface in its `error` return: request
marshalling failure, transport failure, response decoding failure, or a
promoted API error (`*Error`). -/
inductive CallError where
  | marshal
  | transport
  | decode
  | api (e : ZError)
deriving DecidableEq

/-- Result of `callBytes`: the state after the call, the requests actually
handed to the HTTP client, and either the response bytes or an error. -/
structure BytesOut where
  state : ApiState
  trace : List HttpRequest
  out : Except CallError WireBody

/-- The HTTP request `callBytes` builds from state `api`: fixed
`Content-Type`, the configured `User-Agent`, a `Bearer` header exactly
when the session token is non-empty, and the marshalled envelope (whose
`Auth` field is left at its zero value, as the source's struct literal
does) with the freshly incremented correlation id. -/
def sentRequest (api : ApiState) (method : String) (p : Json) : HttpRequest :=
  { url := api.url
    contentType := "application/json-rpc"
    userAgent := api.userAgent
    authorization := if api.auth = "" then none else some ("Bearer " ++ api.auth)
    body := requestBody method p "" (wrap32 (api.id + 1)) }

/-- `callBytes` of base.go: atomically increments the correlation id,
marshals the envelope, builds the request and performs the HTTP
exchange. -/
def callBytes (api : ApiState) (method : String) (params : GoParams) (t : Transport) :
    BytesOut :=
  let api1 := { api with id := wrap32 (api.id + 1) }
  match marshalParams params with
  | none => ⟨api1, [], .error .marshal⟩
  | some p =>
    let req := sentRequest api method p
    match t req with
    | .transportError => ⟨api1, [req], .error .transport⟩
    | .body b => ⟨api1, [req], .ok b⟩

/-- The `Response` struct of base.go: generic decoded envelope.  An absent
or null `result` field both decode to a nil `interface{}`, modelled as
`Json.null`. -/
structure Response where
  jsonrpc : String
  error : Option ZError
  result : Json
  id : Int

/-- The zero value of `Response`, returned alongside errors. -/
def Response.zero : Response := ⟨"", none, Json.null, 0⟩

/-- `json.Unmarshal` of response bytes into `Response`. -/
def decodeResponse : WireBody → Except CallError Response
  | .malformed => .error .decode
  | .envelope j e r i => .ok ⟨j, e, r.getD Json.null, i⟩

/-- Result of `Call`/`CallWithError`: like Go, both the envelope (zero on
failure) and the error return are produced. -/
structure CallOut where
  state : ApiState
  trace : List HttpRequest
  resp : Response
  err : Option CallError

/-- `Call` of base.go: `callBytes` then `json.Unmarshal` into `Response`;
its error return covers only marshalling, transport and decoding. -/
def Call (api : ApiState) (method : String) (params : GoParams) (t : Transport) :
    CallOut :=
  let r := callBytes api method params t
  match r.out with
  | .error e => ⟨r.state, r.trace, Response.zero, some e⟩
  | .ok b =>
    match decodeResponse b with
    | .error e => ⟨r.state, r.trace, Response.zero, some e⟩
    | .ok resp => ⟨r.state, r.trace, resp, none⟩

/-- `CallWithError` of base.go: `Call`, then promote a non-null envelope
error into the error return when the former reported no error. -/
def CallWithError (api : ApiState) (method : String) (params : GoParams) (t : Transport) :
    CallOut :=
  let r := Call api method params t
  match r.err, r.resp.error with
  | none, some e => ⟨r.state, r.trace, r.resp, some (.api e)⟩
  | _, _ => r

/-- Result of `CallWithErrorParse`, carrying the typed decoded value. -/
structure ParseOut (α : Type) where
  state : ApiState
  trace : List HttpRequest
  out : Except CallError α

/-- `CallWithErrorParse` of base.go: decode the deferred-decode envelope
(`RawResponse`), return the API error if present, otherwise unmarshal the
raw result bytes into the caller's target.  The target's unmarshal
semantics is the `decode` parameter; an absent `result` field is a nil
`RawMessage`, and `json.Unmarshal(nil, ...)` fails. -/
def CallWithErrorParse {α : Type} (api : ApiState) (method : String) (params : GoParams)
    (t : Transport) (decode : Json → Option α) : ParseOut α :=
  let r := callBytes api method params t
  match r.out with
  | .error e => ⟨r.state, r.trace, .error e⟩
  | .ok .malformed => ⟨r.state, r.trace, .error .decode⟩
  | .ok (.envelope _ (some e) _ _) => ⟨r.state, r.trace, .error (.api e)⟩
  | .ok (.envelope _ none result _) =>
    match result with
    | none => ⟨r.state, r.trace, .error .decode⟩
    | some j =>
      match decode j with
      | none => ⟨r.state, r.trace, .error .decode⟩
      | some v => ⟨r.state, r.trace, .ok v⟩

/-- Sequential element-wise unmarshal of a JSON array, stopping at the
first element the target type rejects. -/
def decodeEach {α : Type} (d : Json → Option α) : List Json → Option (List α)
  | [] => some []
  | j :: rest =>
    match d j with
    | none => none
    | some v =>
      match decodeEach d rest with
      | none => none
      | some vs => some (v :: vs)

/-- `json.Unmarshal` into a slice-of-structs target, given the unmarshal
semantics of one element: a JSON array decodes element-wise, JSON `null`
leaves the slice nil, anything else is a type mismatch. -/
def sliceDecode {α : Type} (d : Json → Option α) : Json → Option (List α)
  | .null => some []
  | .arr xs => decodeEach d xs
  | _ => none

/-- Outcome of a Go function that may return a value, return an error, or
panic (`panicked` models a failed type assertion). -/
inductive GoOutcome (α : Type) where
  | ok (a : α)
  | err (e : CallError)
  | panicked
deriving DecidableEq

/-- Result of `Login`/`Version`. -/
structure StrOut where
  state : ApiState
  trace : List HttpRequest
  out : GoOutcome String

/-- The params map `Login` builds; `json.Marshal` serializes Go maps with
keys in sorted order, so "password" precedes both "user" and "username". -/
def loginParams (version : Int) (user password : String) : GoParams :=
  if version ≥ 50400 then
    .json (.obj [("password", .str password), ("username", .str user)])
  else
    .json (.obj [("password", .str password), ("user", .str user)])

/-- `Login` of base.go: version-gated `user.login` call; on success the
string result becomes the stored auth token.  A successful response whose
result is not a JSON string hits the `response.Result.(string)` type
assertion and panics. -/
def Login (api : ApiState) (user password : String) (t : Transport) : StrOut :=
  let r := CallWithError api "user.login" (loginParams api.version user password) t
  match r.err with
  | some e => ⟨r.state, r.trace, .err e⟩
  | none =>
    match r.resp.result with
    | .str a => ⟨{ r.state with auth := a }, r.trace, .ok a⟩
    | _ => ⟨r.state, r.trace, .panicked⟩

/-- Whether an error return is a `*Error` with the "invalid params" code,
the condition `Version` retries on. -/
def isInvalidParams : Option CallError → Bool
  | some (.api e) => e.code = -32602
  | _ => false

/-- The tail of `Version` of base.go: return the error if the (possibly
retried) call failed, otherwise run the `response.Result.(string)` type
assertion, which panics on a non-string result. -/
def versionExtract (r : CallOut) : GoOutcome String :=
  match r.err with
  | some e => .err e
  | none =>
    match r.resp.result with
    | .str v => .ok v
    | _ => .panicked

/-- The first `APIInfo.version` call of `Version`: issued with the auth
token cleared. -/
def versionFirst (api : ApiState) (t : Transport) : CallOut :=
  CallWithError { api with auth := "" } "APIInfo.version" (.json (.obj [])) t

/-- The retry call of `Version`: issued after the previously active auth
token has been restored. -/
def versionSecond (api : ApiState) (t : Transport) : CallOut :=
  CallWithError { (versionFirst api t).state with auth := api.auth }
    "APIInfo.version" (.json (.obj [])) t

/-- `Version` of base.go: clears the auth token, calls `APIInfo.version`,
restores the token, retries once (authenticated) when the first call
returned API error -32602, and extracts the string result. -/
def Version (api : ApiState) (t : Transport) : StrOut :=
  if isInvalidParams (versionFirst api t).err then
    ⟨(versionSecond api t).state,
      (versionFirst api t).trace ++ (versionSecond api t).trace,
      versionExtract (versionSecond api t)⟩
  else
    ⟨{ (versionFirst api t).state with auth := api.auth },
      (versionFirst api t).trace,
      versionExtract (versionFirst api t)⟩

/-- `strings.Split(s, ".")` over the characters of `s`: the list of
dot-separated segments (never empty; `Split("", ".") = [""]`). -/
def splitDots : List Char → List (List Char)
  | [] => [[]]
  | c :: rest =>
    if c = '.' then [] :: splitDots rest
    else
      match splitDots rest with
      | [] => [[c]]
      | s :: rs => (c :: s) :: rs

/-- Numeric value of a decimal digit character. -/
def digitVal (c : Char) : Nat := c.toNat - 48

/-- Value of a list of decimal digits, most significant first. -/
def digitsVal (cs : List Char) : Nat :=
  cs.foldl (fun acc c => acc * 10 + digitVal c) 0

/-- Digits-and-range stage of `strconv.ParseInt(s, 10, 64)` after the sign
has been consumed: empty or non-digit input is a syntax error, a value
outside `int64` is a range error. -/
def parseIntCore (neg : Bool) (ds : List Char) : Option Int :=
  if ds = [] then none
  else if ds.all Char.isDigit then
    let v : Int := if neg then -(digitsVal ds : Int) else (digitsVal ds : Int)
    if -9223372036854775808 ≤ v ∧ v ≤ 9223372036854775807 then some v else none
  else none

/-- `strconv.ParseInt(s, 10, 64)` on one segment: optional single sign,
then decimal digits; `none` is a non-nil error. -/
def parseIntGo (cs : List Char) : Option Int :=
  match cs with
  | [] => none
  | c :: rest =>
    if c = '-' then parseIntCore true rest
    else if c = '+' then parseIntCore false rest
    else parseIntCore false cs

/-- Body of `parseVersionString` after the split: weight the first three
segments as major*10000 + minor*100 + patch with `int64` arithmetic,
defaulting missing minor/patch to 0 and never reading a fourth segment. -/
def versionFromParts (parts : List (List Char)) : Option Int :=
  match parseIntGo (parts.getD 0 []) with
  | none => none
  | some p0 =>
    let v1 := wrap64 (p0 * 10000)
    if parts.length > 1 then
      match parseIntGo (parts.getD 1 []) with
      | none => none
      | some p1 =>
        let v2 := wrap64 (v1 + wrap64 (p1 * 100))
        if parts.length > 2 then
          match parseIntGo (parts.getD 2 []) with
          | none => none
          | some p2 => some (wrap64 (v2 + p2))
        else some v2
    else some v1

/-- `parseVersionString` of base.go: `strings.Split` on dots, then the
weighted sum of the first up-to-three segments. -/
def parseVersionString (vstr : String) : Option Int :=
  versionFromParts (splitDots vstr.data)

/-- A dotted-version segment that is a plain base-10 integer: a nonempty
string of decimal digits whose value is `n`. -/
def DigitsRepr (s : String) (n : Nat) : Prop :=
  s.data ≠ [] ∧ s.data.all Char.isDigit = true ∧ digitsVal s.data = n

/-- The `Config` struct fields `NewAPI` consumes. -/
structure Config where
  url : String
  tlsNoVerify : Bool
  serialize : Bool
  version : Int

/-- Errors `NewAPI` can return: a failure of the version call, or a
version string that does not parse. -/
inductive NewAPIError where
  | call (e : CallError)
  | parse
deriving DecidableEq

/-- Result of `NewAPI`: either a normal return carrying the (possibly nil)
`*API` pointer and the (possibly nil) error, or a propagated panic. -/
inductive NewAPIResult where
  | ret (api : Option ApiState) (err : Option NewAPIError)
  | panicked

/-- The `API` value `NewAPI` allocates before negotiating the version. -/
def initialApi (c : Config) : ApiState :=
  { auth := ""
    id := 0
    url := c.url
    userAgent := "github.com/tpretz/go-zabbix-api"
    version := c.version
    serialize := c.serialize }

/-- `NewAPI` of base.go: allocate the `API` object, negotiate the version
via `Version()` and `parseVersionString`, and on success store the parsed
integer in `Config.Version`; on failure return the allocated object
together with the error. -/
def NewAPI (c : Config) (t : Transport) : NewAPIResult :=
  let api := initialApi c
  let r := Version api t
  match r.out with
  | .panicked => .panicked
  | .err e => .ret (some r.state) (some (.call e))
  | .ok vstr =>
    match parseVersionString vstr with
    | none => .ret (some r.state) (some .parse)
    | some v => .ret (some { r.state with version := v }) none

/-- Run a sequence of `Call`s from one client, returning the final state
and the correlation id assigned to each call in issuance order. -/
def runCalls (api : ApiState) (ms : List (String × GoParams)) (t : Transport) :
    ApiState × List Int :=
  match ms with
  | [] => (api, [])
  | (m, p) :: rest =>
    let c := Call api m p t
    let r := runCalls c.state rest t
    (r.1, c.state.id :: r.2)

/-- A transport none of whose well-formed responses can trip the
`Result.(string)` type assertions: every decoded envelope either carries
an API error or a string result. -/
def benignResponses (t : Transport) : Prop :=
  ∀ req jr err res i, t req = .body (.envelope jr err res i) →
    err ≠ none ∨ ∃ s, res = some (Json.str s)

/-- Fixture: a client state holding a non-empty auth token. -/
def apiTok : ApiState :=
  { auth := "TOKEN", id := 0, url := "http://h/api", userAgent := "ua"
    version := 0, serialize := false }

/-- Fixture: a transport whose connection always fails. -/
def tDown : Transport := fun _ => .transportError

/-- Fixture: a server always answering success with a numeric result. -/
def tNum : Transport := fun _ => .body (.envelope "2.0" none (some (.num 42)) 1)

/-- Fixture: a server always answering success with a version string. -/
def tStr : Transport := fun _ => .body (.envelope "2.0" none (some (.str "6.4.0")) 1)

/-- Fixture: a server rejecting unauthenticated calls with API error
-32602 and answering authenticated ones with a version string. -/
def tRetry : Transport := fun req =>
  if req.authorization = none then
    .body (.envelope "2.0" (some ⟨-32602, "Invalid params.", ""⟩) none 1)
  else .body (.envelope "2.0" none (some (.str "2.2.0")) 2)

/-- Fixture: a server always answering with an API error other than
-32602. -/
def tApiErr : Transport := fun _ => .body (.envelope "2.0" (some ⟨-32500, "oops", ""⟩) none 1)

/-- Fixture: a server answering bytes that do not decode as an envelope. -/
def tBad : Transport := fun _ => .body .malformed

/-- Fixture: the unmarshal semantics of a struct holding one integer. -/
def numDecode : Json → Option Int
  | .num n => some n
  | _ => none

/-- Fixture: a server answering success with an array result. -/
def tArr : Transport := fun _ =>
  .body (.envelope "2.0" none (some (.arr [.num 1, .num 2, .num 3])) 1)

section Lemmas

/-- `wrap64` is the identity on values representable in `int64`. -/
theorem wrap64_eq (x : Int) (h1 : -9223372036854775808 ≤ x)
    (h2 : x ≤ 9223372036854775807) : wrap64 x = x := by
  unfold wrap64
  omega

/-- `wrap32` is the identity on values representable in `int32`. -/
theorem wrap32_eq (x : Int) (h1 : -2147483648 ≤ x) (h2 : x ≤ 2147483647) :
    wrap32 x = x := by
  unfold wrap32
  omega

/-- `strings.Split` never returns an empty list. -/
theorem splitDots_ne_nil (cs : List Char) : splitDots cs ≠ [] := by
  induction cs with
  | nil => simp [splitDots]
  | cons c rest ih =>
    unfold splitDots
    split
    · simp
    · cases h : splitDots rest with
      | nil => exact absurd h ih
      | cons s rs => simp [h]

/-- Splitting a dot-free string yields the single segment. -/
theorem splitDots_noDot (xs : List Char) (h : ∀ c ∈ xs, c ≠ '.') :
    splitDots xs = [xs] := by
  induction xs with
  | nil => rfl
  | cons c rest ih =>
    have hc : c ≠ '.' := h c (List.mem_cons_self c rest)
    have hrest := ih (fun d hd => h d (List.mem_cons_of_mem c hd))
    unfold splitDots
    rw [if_neg hc, hrest]

/-- Splitting with a dot-free prefix peels off that first segment. -/
theorem splitDots_append (xs ys : List Char) (h : ∀ c ∈ xs, c ≠ '.') :
    splitDots (xs ++ '.' :: ys) = xs :: splitDots ys := by
  induction xs with
  | nil => simp [splitDots]
  | cons c rest ih =>
    have hc : c ≠ '.' := h c (List.mem_cons_self c rest)
    have hrest := ih (fun d hd => h d (List.mem_cons_of_mem c hd))
    simp [splitDots, hc, hrest]

/-- A decimal digit character is not a dot. -/
theorem isDigit_ne_dot (c : Char) (h : c.isDigit = true) : c ≠ '.' := by
  intro rfl_eq
  subst rfl_eq
  exact absurd h (by decide)

/-- `ParseInt` succeeds on a nonempty all-digit segment whose value fits
in `int64`, returning its decimal value. -/
theorem parseIntGo_digits (cs : List Char) (h1 : cs ≠ [])
    (h2 : cs.all Char.isDigit = true)
    (h3 : (digitsVal cs : Int) ≤ 9223372036854775807) :
    parseIntGo cs = some ((digitsVal cs : Int)) := by
  cases cs with
  | nil => exact absurd rfl h1
  | cons c rest =>
    have hc : c.isDigit = true := by
      have := List.all_eq_true.mp h2
      exact this c (List.mem_cons_self c rest)
    have hminus : c ≠ '-' := by
      intro rfl_eq; subst rfl_eq; exact absurd hc (by decide)
    have hplus : c ≠ '+' := by
      intro rfl_eq; subst rfl_eq; exact absurd hc (by decide)
    have hnn : (0 : Int) ≤ (digitsVal (c :: rest) : Int) := Int.ofNat_nonneg _
    simp only [parseIntGo, if_neg hminus, if_neg hplus]
    unfold parseIntCore
    rw [if_neg (by simp : ¬(c :: rest = [])), if_pos h2, if_pos ⟨by omega, h3⟩]
    simp

/-- The state after `callBytes`: only the correlation counter changes,
whatever the params and the transport do. -/
theorem callBytes_state (api : ApiState) (m : String) (p : GoParams) (t : Transport) :
    (callBytes api m p t).state = { api with id := wrap32 (api.id + 1) } := by
  cases p with
  | unserializable => rfl
  | json j =>
    cases htr : t (sentRequest api m j) <;>
      simp [callBytes, marshalParams, htr]

/-- With serializable params, `callBytes` sends exactly one request. -/
theorem callBytes_trace_json (api : ApiState) (m : String) (j : Json) (t : Transport) :
    (callBytes api m (.json j) t).trace = [sentRequest api m j] := by
  cases htr : t (sentRequest api m j) <;>
    simp [callBytes, marshalParams, htr]

/-- The outcome of `callBytes` with serializable params. -/
theorem callBytes_out_json (api : ApiState) (m : String) (j : Json) (t : Transport) :
    (callBytes api m (.json j) t).out
      = match t (sentRequest api m j) with
        | .transportError => .error .transport
        | .body b => .ok b := by
  cases htr : t (sentRequest api m j) <;>
    simp [callBytes, marshalParams, htr]

/-- `Call` passes the state of `callBytes` through unchanged. -/
theorem Call_state (api : ApiState) (m : String) (p : GoParams) (t : Transport) :
    (Call api m p t).state = { api with id := wrap32 (api.id + 1) } := by
  unfold Call
  cases h : (callBytes api m p t).out with
  | error e => simpa [h] using callBytes_state api m p t
  | ok b =>
    cases hb : decodeResponse b <;>
      simpa [h, hb] using callBytes_state api m p t

/-- `Call` passes the trace of `callBytes` through unchanged. -/
theorem Call_trace (api : ApiState) (m : String) (p : GoParams) (t : Transport) :
    (Call api m p t).trace = (callBytes api m p t).trace := by
  unfold Call
  cases h : (callBytes api m p t).out with
  | error e => simp [h]
  | ok b => cases hb : decodeResponse b <;> simp [h, hb]

/-- `CallWithError` keeps the state of `Call`. -/
theorem CallWithError_state (api : ApiState) (m : String) (p : GoParams) (t : Transport) :
    (CallWithError api m p t).state = (Call api m p t).state := by
  unfold CallWithError
  cases h : (Call api m p t).err <;>
    cases he : (Call api m p t).resp.error <;> simp [h, he]

/-- `CallWithError` keeps the trace of `Call`. -/
theorem CallWithError_trace (api : ApiState) (m : String) (p : GoParams) (t : Transport) :
    (CallWithError api m p t).trace = (Call api m p t).trace := by
  unfold CallWithError
  cases h : (Call api m p t).err <;>
    cases he : (Call api m p t).resp.error <;> simp [h, he]

/-- `CallWithError` returns the same envelope as `Call`. -/
theorem CallWithError_resp (api : ApiState) (m : String) (p : GoParams) (t : Transport) :
    (CallWithError api m p t).resp = (Call api m p t).resp := by
  unfold CallWithError
  cases h : (Call api m p t).err <;>
    cases he : (Call api m p t).resp.error <;> simp [h, he]

/-- The error return of `CallWithError`: `Call`'s error, with a non-null
envelope error promoted exactly when `Call` reported none. -/
theorem CallWithError_err (api : ApiState) (m : String) (p : GoParams) (t : Transport) :
    (CallWithError api m p t).err
      = match (Call api m p t).err, (Call api m p t).resp.error with
        | none, some e => some (.api e)
        | o, _ => o := by
  unfold CallWithError
  cases h : (Call api m p t).err <;>
    cases he : (Call api m p t).resp.error <;> simp [h, he]

/-- `CallWithErrorParse` passes the state of `callBytes` through. -/
theorem CallWithErrorParse_state {α : Type} (api : ApiState) (m : String) (p : GoParams)
    (t : Transport) (d : Json → Option α) :
    (CallWithErrorParse api m p t d).state = { api with id := wrap32 (api.id + 1) } := by
  unfold CallWithErrorParse
  cases h : (callBytes api m p t).out with
  | error e => simp [h, callBytes_state]
  | ok b =>
    cases b with
    | malformed => simp [h, callBytes_state]
    | envelope jr e r i =>
      cases e with
      | some z => simp [h, callBytes_state]
      | none =>
        cases r with
        | none => simp [h, callBytes_state]
        | some j =>
          cases hd : d j <;> simp [h, hd, callBytes_state]

/-- `Call`'s own error return never carries an API error. -/
theorem Call_err_not_api (api : ApiState) (m : String) (p : GoParams) (t : Transport)
    (z : ZError) : (Call api m p t).err ≠ some (CallError.api z) := by
  cases p with
  | unserializable => simp [Call, callBytes, marshalParams]
  | json j =>
    simp only [Call]
    rw [callBytes_out_json]
    cases htr : t (sentRequest api m j) with
    | transportError => simp
    | body b => cases b <;> simp [decodeResponse]

/-- When the wire carries a decoded envelope, `Call` reports no error and
returns the envelope as data. -/
theorem Call_of_envelope (api : ApiState) (m : String) (p : GoParams) (t : Transport)
    (jr : String) (e : Option ZError) (res : Option Json) (i : Int)
    (h : (callBytes api m p t).out = .ok (.envelope jr e res i)) :
    (Call api m p t).err = none
    ∧ (Call api m p t).resp = ⟨jr, e, res.getD Json.null, i⟩ := by
  unfold Call
  simp [h, decodeResponse]

/-- Conversely, a `Call` with no error return came from a decoded
envelope. -/
theorem Call_err_none (api : ApiState) (m : String) (p : GoParams) (t : Transport)
    (h : (Call api m p t).err = none) :
    ∃ jr e res i, (callBytes api m p t).out = .ok (.envelope jr e res i) := by
  unfold Call at h
  cases hout : (callBytes api m p t).out with
  | error e => simp [hout] at h
  | ok b =>
    cases b with
    | malformed => simp [hout, decodeResponse] at h
    | envelope jr e res i => exact ⟨jr, e, res, i, rfl⟩

/-- Response bytes reported by `callBytes` really came from the
transport. -/
theorem callBytes_ok_body (api : ApiState) (m : String) (p : GoParams) (t : Transport)
    (b : WireBody) (h : (callBytes api m p t).out = .ok b) :
    ∃ req, t req = .body b := by
  cases p with
  | unserializable => simp [callBytes, marshalParams] at h
  | json j =>
    rw [callBytes_out_json] at h
    cases htr : t (sentRequest api m j) with
    | transportError => rw [htr] at h; simp at h
    | body b2 =>
      rw [htr] at h
      simp at h
      exact ⟨sentRequest api m j, by rw [htr, h]⟩

/-- A clean `CallWithError` means `Call` was clean and the envelope error
was null. -/
theorem CallWithError_err_none (api : ApiState) (m : String) (p : GoParams) (t : Transport)
    (h : (CallWithError api m p t).err = none) :
    (Call api m p t).err = none ∧ (Call api m p t).resp.error = none := by
  rw [CallWithError_err] at h
  cases he : (Call api m p t).err with
  | some e => rw [he] at h; simp at h
  | none =>
    cases hz : (Call api m p t).resp.error with
    | some z => rw [he, hz] at h; simp at h
    | none => exact ⟨rfl, rfl⟩

/-- Against a benign transport, a clean `CallWithError` always carries a
string result, so the `Result.(string)` assertions cannot panic. -/
theorem CallWithError_benign (api : ApiState) (m : String) (p : GoParams) (t : Transport)
    (hb : benignResponses t) (h : (CallWithError api m p t).err = none) :
    ∃ s, (CallWithError api m p t).resp.result = Json.str s := by
  obtain ⟨hc, hz⟩ := CallWithError_err_none api m p t h
  obtain ⟨jr, e, res, i, hout⟩ := Call_err_none api m p t hc
  obtain ⟨req, hreq⟩ := callBytes_ok_body api m p t _ hout
  obtain ⟨-, hresp⟩ := Call_of_envelope api m p t jr e res i hout
  have he : e = none := by rw [hresp] at hz; exact hz
  rcases hb req jr e res i hreq with hne | ⟨s, hs⟩
  · exact absurd he hne
  · exact ⟨s, by rw [CallWithError_resp, hresp, hs]; rfl⟩

/-- `versionExtract` returns the call's error verbatim. -/
theorem versionExtract_err (r : CallOut) (e : CallError) (h : r.err = some e) :
    versionExtract r = .err e := by
  unfold versionExtract
  rw [h]

/-- `versionExtract` returns a string result verbatim. -/
theorem versionExtract_ok (r : CallOut) (v : String) (he : r.err = none)
    (hr : r.resp.result = .str v) : versionExtract r = .ok v := by
  unfold versionExtract
  rw [he, hr]

/-- `versionExtract` cannot panic when a clean call implies a string
result. -/
theorem versionExtract_safe (r : CallOut)
    (h : r.err = none → ∃ s, r.resp.result = Json.str s) :
    versionExtract r ≠ .panicked := by
  unfold versionExtract
  cases he : r.err with
  | some e => simp
  | none =>
    obtain ⟨s, hs⟩ := h he
    rw [hs]
    simp

/-- `Version` when the first call hit the -32602 quirk. -/
theorem Version_pos (api : ApiState) (t : Transport)
    (h : isInvalidParams (versionFirst api t).err = true) :
    Version api t =
      ⟨(versionSecond api t).state,
        (versionFirst api t).trace ++ (versionSecond api t).trace,
        versionExtract (versionSecond api t)⟩ := by
  unfold Version
  rw [if_pos h]

/-- `Version` when no retry is triggered. -/
theorem Version_neg (api : ApiState) (t : Transport)
    (h : isInvalidParams (versionFirst api t).err = false) :
    Version api t =
      ⟨{ (versionFirst api t).state with auth := api.auth },
        (versionFirst api t).trace,
        versionExtract (versionFirst api t)⟩ := by
  unfold Version
  rw [if_neg (by simp [h])]

/-- `Version` restores the caller's auth token on every exit path and
never touches the negotiated version. -/
theorem Version_state_fields (api : ApiState) (t : Transport) :
    (Version api t).state.auth = api.auth
    ∧ (Version api t).state.version = api.version := by
  cases h : isInvalidParams (versionFirst api t).err with
  | true =>
    rw [Version_pos api t h]
    unfold versionSecond
    rw [CallWithError_state, Call_state]
    unfold versionFirst
    rw [CallWithError_state, Call_state]
    exact ⟨rfl, rfl⟩
  | false =>
    rw [Version_neg api t h]
    unfold versionFirst
    rw [CallWithError_state, Call_state]
    exact ⟨rfl, rfl⟩

/-- `Login` passes the trace of its single `CallWithError` through. -/
theorem Login_trace (api : ApiState) (u pw : String) (t : Transport) :
    (Login api u pw t).trace
      = (CallWithError api "user.login" (loginParams api.version u pw) t).trace := by
  unfold Login
  cases h : (CallWithError api "user.login" (loginParams api.version u pw) t).err with
  | some e => simp [h]
  | none =>
    cases hr : (CallWithError api "user.login" (loginParams api.version u pw) t).resp.result <;>
      simp [h, hr]

/-- Element-wise success of `decodeEach`: the output has the same length
and its entries are the decodes of the corresponding inputs. -/
theorem decodeEach_spec {β : Type} (d : Json → Option β) :
    ∀ (xs : List Json) (ys : List β), decodeEach d xs = some ys →
      ys.length = xs.length
      ∧ ∀ (k : Nat) (h1 : k < xs.length) (h2 : k < ys.length),
          d (xs.get ⟨k, h1⟩) = some (ys.get ⟨k, h2⟩) := by
  intro xs
  induction xs with
  | nil =>
    intro ys h
    simp only [decodeEach, Option.some.injEq] at h
    subst h
    exact ⟨rfl, fun k h1 h2 => absurd h1 (by simp)⟩
  | cons x xs ih =>
    intro ys h
    simp only [decodeEach] at h
    cases hx : d x with
    | none => rw [hx] at h; simp at h
    | some b =>
      rw [hx] at h
      cases hxs : decodeEach d xs with
      | none => rw [hxs] at h; simp at h
      | some bs =>
        rw [hxs] at h
        simp at h
        obtain ⟨hlen, hget⟩ := ih bs hxs
        subst h
        refine ⟨by simp [hlen], ?_⟩
        intro k h1 h2
        cases k with
        | zero => simpa using hx
        | succ n =>
          have hn1 : n < xs.length := by simpa using h1
          have hn2 : n < bs.length := by simpa using h2
          simpa using hget n hn1 hn2

/-- Correlation ids assigned by a sequence of calls: while the counter
stays below the `int32` bound, every assigned id exceeds the starting
counter and the ids are strictly increasing in issuance order. -/
theorem runCalls_ids (t : Transport) :
    ∀ (ms : List (String × GoParams)) (s : ApiState),
      0 ≤ s.id → s.id + ms.length ≤ 2147483647 →
      (∀ x ∈ (runCalls s ms t).2, s.id < x)
      ∧ (runCalls s ms t).2.Pairwise (· < ·) := by
  intro ms
  induction ms with
  | nil => intro s h0 hlen; simp [runCalls]
  | cons mp rest ih =>
    intro s h0 hlen
    obtain ⟨m, p⟩ := mp
    have hid : (Call s m p t).state.id = s.id + 1 := by
      rw [Call_state]
      exact wrap32_eq _ (by omega) (by simp only [List.length_cons] at hlen; omega)
    have h0' : 0 ≤ (Call s m p t).state.id := by omega
    have hlen' : (Call s m p t).state.id + rest.length ≤ 2147483647 := by
      simp only [List.length_cons] at hlen; omega
    obtain ⟨hmem, hpw⟩ := ih (Call s m p t).state h0' hlen'
    constructor
    · intro x hx
      simp only [runCalls, List.mem_cons] at hx
      rcases hx with rfl_eq | hx
      · omega
      · have := hmem x hx; omega
    · simp only [runCalls, List.pairwise_cons]
      refine ⟨fun x hx => ?_, hpw⟩
      have := hmem x hx
      omega

/-- `loginParams` always marshals (it is a plain string map). -/
theorem loginParams_json (v : Int) (u pw : String) :
    ∃ j, loginParams v u pw = .json j := by
  unfold loginParams
  by_cases h : v ≥ 50400
  · rw [if_pos h]; exact ⟨_, rfl⟩
  · rw [if_neg h]; exact ⟨_, rfl⟩

/-- A `Call` error passes through `CallWithError` unchanged. -/
theorem CallWithError_err_of_some (api : ApiState) (m : String) (p : GoParams)
    (t : Transport) (e : CallError) (h : (Call api m p t).err = some e) :
    (CallWithError api m p t).err = some e := by
  rw [CallWithError_err, h]

/-- Against a dead transport, `Call` reports a transport error. -/
theorem Call_err_down (api : ApiState) (m : String) (j : Json) (t : Transport)
    (ht : ∀ req, t req = .transportError) :
    (Call api m (.json j) t).err = some .transport := by
  simp only [Call]
  rw [callBytes_out_json, ht (sentRequest api m j)]

/-- Against a transport answering undecodable bytes, `Call` reports a
decoding error. -/
theorem Call_err_malformed (api : ApiState) (m : String) (j : Json) (t : Transport)
    (ht : ∀ req, t req = .body .malformed) :
    (Call api m (.json j) t).err = some .decode := by
  simp only [Call]
  rw [callBytes_out_json, ht (sentRequest api m j)]
  rfl

/-- Against a server that always answers an envelope carrying an API
error, `Call` reports no error and carries the error as data, and
`CallWithError` promotes it into its error return. -/
theorem CallWithError_err_apienv (s : ApiState) (mm : String) (jj : Json)
    (t : Transport) (jr : String) (z : ZError) (res : Option Json) (i : Int)
    (ht : ∀ req, t req = .body (.envelope jr (some z) res i)) :
    (Call s mm (.json jj) t).err = none
    ∧ (Call s mm (.json jj) t).resp.error = some z
    ∧ (CallWithError s mm (.json jj) t).err = some (.api z) := by
  have hout : (callBytes s mm (.json jj) t).out = .ok (.envelope jr (some z) res i) := by
    rw [callBytes_out_json, ht (sentRequest s mm jj)]
  obtain ⟨h1, h2⟩ := Call_of_envelope s mm (.json jj) t jr (some z) res i hout
  refine ⟨h1, by rw [h2], ?_⟩
  rw [CallWithError_err, h1, h2]

/-- `Login` forwards the error of a failed `CallWithError`. -/
theorem Login_err (api : ApiState) (u pw : String) (t : Transport) (e : CallError)
    (h : (CallWithError api "user.login" (loginParams api.version u pw) t).err = some e) :
    (Login api u pw t).out = .err e := by
  simp only [Login]
  rw [h]

/-- `Version` forwards the error of a failed first call when the error is
not the -32602 quirk. -/
theorem Version_err (api : ApiState) (t : Transport) (e : CallError)
    (h : (versionFirst api t).err = some e) (hni : isInvalidParams (some e) = false) :
    (Version api t).out = .err e := by
  have hf : isInvalidParams (versionFirst api t).err = false := by rw [h]; exact hni
  rw [Version_neg api t hf]
  exact versionExtract_err _ e h

/-- Evaluation of the weighted sum on a single segment. -/
theorem versionFromParts_one (p0 : List Char) (v0 : Int)
    (h0 : parseIntGo p0 = some v0) :
    versionFromParts [p0] = some (wrap64 (v0 * 10000)) := by
  simp [versionFromParts, h0]

/-- Evaluation of the weighted sum on two segments. -/
theorem versionFromParts_two (p0 p1 : List Char) (v0 v1 : Int)
    (h0 : parseIntGo p0 = some v0) (h1 : parseIntGo p1 = some v1) :
    versionFromParts [p0, p1]
      = some (wrap64 (wrap64 (v0 * 10000) + wrap64 (v1 * 100))) := by
  simp [versionFromParts, h0, h1]

/-- Evaluation of the weighted sum on three segments; any further
segments are never consulted. -/
theorem versionFromParts_three (p0 p1 p2 : List Char) (extra : List (List Char))
    (v0 v1 v2 : Int) (h0 : parseIntGo p0 = some v0) (h1 : parseIntGo p1 = some v1)
    (h2 : parseIntGo p2 = some v2) :
    versionFromParts (p0 :: p1 :: p2 :: extra)
      = some (wrap64 (wrap64 (wrap64 (v0 * 10000) + wrap64 (v1 * 100)) + v2)) := by
  have hl1 : (p0 :: p1 :: p2 :: extra).length > 1 := by
    simp only [List.length_cons]; omega
  have hl2 : (p0 :: p1 :: p2 :: extra).length > 2 := by
    simp only [List.length_cons]; omega
  simp [versionFromParts, h0, h1, h2, hl1, hl2]

/-- If any of the first three segments fails `ParseInt`, the parse fails. -/
theorem versionFromParts_fail (parts : List (List Char))
    (h : (parts.take 3).any (fun seg => (parseIntGo seg).isNone) = true) :
    versionFromParts parts = none := by
  cases parts with
  | nil => simp at h
  | cons p0 tail =>
    cases hp0 : parseIntGo p0 with
    | none => simp [versionFromParts, hp0]
    | some v0 =>
      cases tail with
      | nil => simp [hp0] at h
      | cons p1 tail2 =>
        have hl1 : (p0 :: p1 :: tail2).length > 1 := by
          simp only [List.length_cons]; omega
        cases hp1 : parseIntGo p1 with
        | none => simp [versionFromParts, hp0, hp1, hl1]
        | some v1 =>
          cases tail2 with
          | nil => simp [hp0, hp1] at h
          | cons p2 t3 =>
            have hl2 : (p0 :: p1 :: p2 :: t3).length > 2 := by
              simp only [List.length_cons]; omega
            cases hp2 : parseIntGo p2 with
            | none => simp [versionFromParts, hp0, hp1, hp2, hl1, hl2]
            | some v2 => simp [hp0, hp1, hp2] at h

end Lemmas

/-- C3: for every version string of the form "X[.Y[.Z]]" with base-10
integer segments (values small enough for the `int64` arithmetic of the
source), parsing returns major*10000 + minor*100 + patch, with missing
minor/patch defaulting to 0; segments beyond the third are ignored; and
parsing fails when any consulted segment is not a base-10 integer. -/
theorem C3_version_parsing (a b c : Nat) (sa sb sc rest : String)
    (ha : DigitsRepr sa a) (hb : DigitsRepr sb b) (hc : DigitsRepr sc c)
    (hbound : a * 10000 + b * 100 + c ≤ 9223372036854775807) :
    parseVersionString sa = some ((a : Int) * 10000)
    ∧ parseVersionString (sa ++ "." ++ sb) = some ((a : Int) * 10000 + (b : Int) * 100)
    ∧ parseVersionString (sa ++ "." ++ sb ++ "." ++ sc)
        = some ((a : Int) * 10000 + (b : Int) * 100 + (c : Int))
    ∧ parseVersionString (sa ++ "." ++ sb ++ "." ++ sc ++ "." ++ rest)
        = parseVersionString (sa ++ "." ++ sb ++ "." ++ sc)
    ∧ (∀ w : String,
        ((splitDots w.data).take 3).any (fun seg => (parseIntGo seg).isNone) = true →
        parseVersionString w = none) := by
  have allA := List.all_eq_true.mp ha.2.1
  have allB := List.all_eq_true.mp hb.2.1
  have allC := List.all_eq_true.mp hc.2.1
  have nodotA : ∀ ch ∈ sa.data, ch ≠ '.' := fun ch hch => isDigit_ne_dot ch (allA ch hch)
  have nodotB : ∀ ch ∈ sb.data, ch ≠ '.' := fun ch hch => isDigit_ne_dot ch (allB ch hch)
  have nodotC : ∀ ch ∈ sc.data, ch ≠ '.' := fun ch hch => isDigit_ne_dot ch (allC ch hch)
  have hPa : parseIntGo sa.data = some ((a : Int)) := by
    have h := parseIntGo_digits sa.data ha.1 ha.2.1
      (by rw [ha.2.2]; exact_mod_cast (by omega : a ≤ 9223372036854775807))
    rwa [ha.2.2] at h
  have hPb : parseIntGo sb.data = some ((b : Int)) := by
    have h := parseIntGo_digits sb.data hb.1 hb.2.1
      (by rw [hb.2.2]; exact_mod_cast (by omega : b ≤ 9223372036854775807))
    rwa [hb.2.2] at h
  have hPc : parseIntGo sc.data = some ((c : Int)) := by
    have h := parseIntGo_digits sc.data hc.1 hc.2.1
      (by rw [hc.2.2]; exact_mod_cast (by omega : c ≤ 9223372036854775807))
    rwa [hc.2.2] at h
  have w1 : wrap64 ((a : Int) * 10000) = (a : Int) * 10000 := by
    have hub : ((a : Int)) * 10000 ≤ 9223372036854775807 := by
      exact_mod_cast (by omega : a * 10000 ≤ 9223372036854775807)
    have hlb : (0 : Int) ≤ (a : Int) * 10000 := by omega
    exact wrap64_eq _ (by omega) hub
  have w2 : wrap64 ((b : Int) * 100) = (b : Int) * 100 := by
    have hub : ((b : Int)) * 100 ≤ 9223372036854775807 := by
      exact_mod_cast (by omega : b * 100 ≤ 9223372036854775807)
    have hlb : (0 : Int) ≤ (b : Int) * 100 := by omega
    exact wrap64_eq _ (by omega) hub
  have w12 : wrap64 ((a : Int) * 10000 + (b : Int) * 100)
      = (a : Int) * 10000 + (b : Int) * 100 := by
    have hub : ((a : Int)) * 10000 + ((b : Int)) * 100 ≤ 9223372036854775807 := by
      exact_mod_cast (by omega : a * 10000 + b * 100 ≤ 9223372036854775807)
    have hlb : (0 : Int) ≤ (a : Int) * 10000 + (b : Int) * 100 := by omega
    exact wrap64_eq _ (by omega) hub
  have w123 : wrap64 ((a : Int) * 10000 + (b : Int) * 100 + (c : Int))
      = (a : Int) * 10000 + (b : Int) * 100 + (c : Int) := by
    have hub : ((a : Int)) * 10000 + ((b : Int)) * 100 + ((c : Int))
        ≤ 9223372036854775807 := by exact_mod_cast hbound
    have hlb : (0 : Int) ≤ (a : Int) * 10000 + (b : Int) * 100 + (c : Int) := by omega
    exact wrap64_eq _ (by omega) hub
  have hdata2 : (sa ++ "." ++ sb).data = sa.data ++ '.' :: sb.data := by
    simp [String.data_append]
  have hdata3 : (sa ++ "." ++ sb ++ "." ++ sc).data
      = sa.data ++ '.' :: (sb.data ++ '.' :: sc.data) := by
    simp [String.data_append]
  have hdata4 : (sa ++ "." ++ sb ++ "." ++ sc ++ "." ++ rest).data
      = sa.data ++ '.' :: (sb.data ++ '.' :: (sc.data ++ '.' :: rest.data)) := by
    simp [String.data_append]
  have e3 : parseVersionString (sa ++ "." ++ sb ++ "." ++ sc)
      = some ((a : Int) * 10000 + (b : Int) * 100 + (c : Int)) := by
    unfold parseVersionString
    rw [hdata3, splitDots_append sa.data _ nodotA, splitDots_append sb.data _ nodotB,
      splitDots_noDot sc.data nodotC,
      versionFromParts_three sa.data sb.data sc.data [] _ _ _ hPa hPb hPc,
      w1, w2, w12, w123]
  refine ⟨?_, ?_, e3, ?_, ?_⟩
  · unfold parseVersionString
    rw [splitDots_noDot sa.data nodotA, versionFromParts_one sa.data _ hPa, w1]
  · unfold parseVersionString
    rw [hdata2, splitDots_append sa.data _ nodotA, splitDots_noDot sb.data nodotB,
      versionFromParts_two sa.data sb.data _ _ hPa hPb, w1, w2, w12]
  · rw [e3]
    unfold parseVersionString
    rw [hdata4, splitDots_append sa.data _ nodotA, splitDots_append sb.data _ nodotB,
      splitDots_append sc.data _ nodotC,
      versionFromParts_three sa.data sb.data sc.data _ _ _ _ hPa hPb hPc,
      w1, w2, w12, w123]
  · intro w hw
    unfold parseVersionString
    exact versionFromParts_fail _ hw

/-- C3 witness: "5.4.0" parses to 50400, "3.0" to 30000, "2" to 20000,
and the fourth segment of "5.4.0.1" is ignored. -/
theorem C3_witness :
    parseVersionString ("5" ++ "." ++ "4" ++ "." ++ "0")
        = some ((5 : Int) * 10000 + (4 : Int) * 100 + (0 : Int))
    ∧ parseVersionString ("3" ++ "." ++ "0") = some ((3 : Int) * 10000 + (0 : Int) * 100)
    ∧ parseVersionString "2" = some ((2 : Int) * 10000)
    ∧ parseVersionString ("5" ++ "." ++ "4" ++ "." ++ "0" ++ "." ++ "1")
        = parseVersionString ("5" ++ "." ++ "4" ++ "." ++ "0")
    ∧ parseVersionString "5.x" = none := by
  have h5 := C3_version_parsing 5 4 0 "5" "4" "0" "1"
    ⟨by decide, by decide, rfl⟩ ⟨by decide, by decide, rfl⟩ ⟨by decide, by decide, rfl⟩
    (by norm_num)
  have h3 := C3_version_parsing 3 0 0 "3" "0" "0" ""
    ⟨by decide, by decide, rfl⟩ ⟨by decide, by decide, rfl⟩ ⟨by decide, by decide, rfl⟩
    (by norm_num)
  have h2 := C3_version_parsing 2 0 0 "2" "0" "0" ""
    ⟨by decide, by decide, rfl⟩ ⟨by decide, by decide, rfl⟩ ⟨by decide, by decide, rfl⟩
    (by norm_num)
  refine ⟨h5.2.2.1, h3.2.1, h2.1, h5.2.2.2.1, ?_⟩
  exact h5.2.2.2.2 "5.x" (by decide)

/-- C1 (amended): when the session token is non-empty, every outbound
request carries the bearer-style `Authorization` header, but the
serialized envelope's auth field is always omitted — the source never
fills the request struct's `Auth` field, so envelope-based auth is never
populated. -/
theorem C1_bearer_header_no_envelope_auth (api : ApiState) (m : String)
    (p : GoParams) (t : Transport) (h : api.auth ≠ "") :
    ∀ req ∈ (callBytes api m p t).trace,
      req.authorization = some ("Bearer " ++ api.auth)
      ∧ req.body.lookup "auth" = none := by
  intro req hreq
  cases p with
  | unserializable => simp [callBytes, marshalParams] at hreq
  | json j =>
    rw [callBytes_trace_json] at hreq
    simp only [List.mem_singleton] at hreq
    subst hreq
    exact ⟨by simp [sentRequest, h], rfl⟩

/-- C1 (counterexample): with token "TOKEN", the one outbound request
carries the bearer header, yet its serialized envelope has no auth field
at all — refuting the claim that the envelope's auth field is populated
alongside the header. -/
theorem C1_counterexample :
    apiTok.auth = "TOKEN"
    ∧ (callBytes apiTok "host.get" (GoParams.json Json.null) tDown).trace.map
        (fun r => r.authorization) = [some "Bearer TOKEN"]
    ∧ (callBytes apiTok "host.get" (GoParams.json Json.null) tDown).trace.map
        (fun r => (r.body.lookup "auth").isSome) = [false] :=
  ⟨rfl, rfl, rfl⟩

/-- C1 witness: concrete run with a non-empty token showing the header
present and the envelope auth field absent. -/
theorem C1_witness :
    apiTok.auth ≠ ""
    ∧ (callBytes apiTok "host.get" (GoParams.json Json.null) tStr).trace.map
        (fun r => (r.authorization, (r.body.lookup "auth").isSome))
      = [(some "Bearer TOKEN", false)] := by
  have h := C1_bearer_header_no_envelope_auth apiTok "host.get"
    (GoParams.json Json.null) tStr (by decide)
  have hm := h (sentRequest apiTok "host.get" Json.null)
    (by rw [callBytes_trace_json]; exact List.mem_singleton_self _)
  refine ⟨by decide, ?_⟩
  rw [callBytes_trace_json, List.map_singleton, hm.1, hm.2]
  rfl

/-- C4: `Login` serializes parameter keys {"username","password"} exactly
when the negotiated version is at least 50400, and {"user","password"}
otherwise (`json.Marshal` emits map keys sorted). -/
theorem C4_login_param_keys (api : ApiState) (u pw : String) (t : Transport) :
    (Login api u pw t).trace.map (fun r => r.body.lookup "params")
      = [some (if api.version ≥ 50400
          then Json.obj [("password", Json.str pw), ("username", Json.str u)]
          else Json.obj [("password", Json.str pw), ("user", Json.str u)])] := by
  rw [Login_trace, CallWithError_trace, Call_trace]
  unfold loginParams
  by_cases hv : api.version ≥ 50400
  · rw [if_pos hv, if_pos hv, callBytes_trace_json]
    rfl
  · rw [if_neg hv, if_neg hv, callBytes_trace_json]
    rfl

/-- C6: `Call`'s own error return never carries an API error — an
API-level error arrives as data in the envelope with a nil error return —
and `CallWithError` returns the same state, trace and envelope but
promotes a non-null envelope error into its error return exactly when
`Call` reported none. -/
theorem C6_api_error_promotion (api : ApiState) (m : String) (p : GoParams)
    (t : Transport) :
    (∀ z, (Call api m p t).err ≠ some (CallError.api z))
    ∧ (∀ jr e res i, (callBytes api m p t).out = .ok (.envelope jr e res i) →
        (Call api m p t).err = none ∧ (Call api m p t).resp.error = e)
    ∧ (CallWithError api m p t).state = (Call api m p t).state
    ∧ (CallWithError api m p t).trace = (Call api m p t).trace
    ∧ (CallWithError api m p t).resp = (Call api m p t).resp
    ∧ ((CallWithError api m p t).err
        = match (Call api m p t).err, (Call api m p t).resp.error with
          | none, some e => some (CallError.api e)
          | o, _ => o) := by
  refine ⟨Call_err_not_api api m p t, ?_, CallWithError_state api m p t,
    CallWithError_trace api m p t, CallWithError_resp api m p t,
    CallWithError_err api m p t⟩
  intro jr e res i h
  obtain ⟨h1, h2⟩ := Call_of_envelope api m p t jr e res i h
  exact ⟨h1, by rw [h2]⟩

/-- C6 witness: a server answering an API error yields false from `Call`'s
error return, the error as envelope data, and a promoted error from
`CallWithError`. -/
theorem C6_witness :
    (Call apiTok "host.get" (GoParams.json Json.null) tApiErr).err = none
    ∧ (Call apiTok "host.get" (GoParams.json Json.null) tApiErr).resp.error
        = some ⟨-32500, "oops", ""⟩
    ∧ (CallWithError apiTok "host.get" (GoParams.json Json.null) tApiErr).err
        = some (CallError.api ⟨-32500, "oops", ""⟩) := by
  obtain ⟨-, h2, -, -, -, h6⟩ :=
    C6_api_error_promotion apiTok "host.get" (GoParams.json Json.null) tApiErr
  have he := h2 "2.0" (some ⟨-32500, "oops", ""⟩) none 1 rfl
  refine ⟨he.1, he.2, ?_⟩
  rw [h6, he.1, he.2]

/-- C7: `CallWithErrorParse` returns a non-null envelope API error without
consulting the target decoder; otherwise it decodes the raw result bytes
into the caller's target, and an array result decoded into a
list-of-structs target preserves every element. -/
theorem C7_typed_decode {α β : Type} (api : ApiState) (m : String) (p : GoParams)
    (t : Transport) (d : Json → Option α) (delem : Json → Option β) :
    (∀ jr e res i, (callBytes api m p t).out = .ok (.envelope jr (some e) res i) →
        (CallWithErrorParse api m p t d).out = .error (.api e))
    ∧ (∀ jr j i, (callBytes api m p t).out = .ok (.envelope jr none (some j) i) →
        (CallWithErrorParse api m p t d).out
          = match d j with
            | none => .error .decode
            | some v => .ok v)
    ∧ (∀ jr i (xs : List Json) (ys : List β),
        (callBytes api m p t).out = .ok (.envelope jr none (some (.arr xs)) i) →
        decodeEach delem xs = some ys →
        (CallWithErrorParse api m p t (sliceDecode delem)).out = .ok ys
        ∧ ys.length = xs.length
        ∧ ∀ (k : Nat) (h1 : k < xs.length) (h2 : k < ys.length),
            delem (xs.get ⟨k, h1⟩) = some (ys.get ⟨k, h2⟩)) := by
  refine ⟨?_, ?_, ?_⟩
  · intro jr e res i h
    simp [CallWithErrorParse, h]
  · intro jr j i h
    cases hd : d j <;> simp [CallWithErrorParse, h, hd]
  · intro jr i xs ys h hmap
    obtain ⟨hlen, hget⟩ := decodeEach_spec delem xs ys hmap
    refine ⟨?_, hlen, hget⟩
    simp [CallWithErrorParse, h, sliceDecode, hmap]

/-- C7 witness: a three-element array result decodes into a three-element
list with the elements in order. -/
theorem C7_witness :
    (CallWithErrorParse apiTok "item.get" (GoParams.json Json.null) tArr
        (sliceDecode numDecode)).out = .ok [(1 : Int), 2, 3]
    ∧ ([(1 : Int), 2, 3].length = [Json.num 1, Json.num 2, Json.num 3].length) := by
  obtain ⟨h1, h2, -⟩ :=
    (C7_typed_decode apiTok "item.get" (GoParams.json Json.null) tArr
      numDecode numDecode).2.2 "2.0" 1 [Json.num 1, Json.num 2, Json.num 3]
      [(1 : Int), 2, 3] rfl rfl
  exact ⟨h1, h2.symm ▸ rfl⟩

/-- C8: every engine call advances the shared correlation counter exactly
once whatever the outcome (encoding and transport failures included), and
a sequence of calls from a fresh client gets pairwise distinct, strictly
increasing ids while the counter stays within `int32`. -/
theorem C8_correlation_ids {α : Type} (api : ApiState) (m : String) (p : GoParams)
    (t : Transport) (d : Json → Option α) :
    (callBytes api m p t).state.id = wrap32 (api.id + 1)
    ∧ (Call api m p t).state.id = wrap32 (api.id + 1)
    ∧ (CallWithError api m p t).state.id = wrap32 (api.id + 1)
    ∧ (CallWithErrorParse api m p t d).state.id = wrap32 (api.id + 1)
    ∧ (∀ (ms : List (String × GoParams)) (s : ApiState),
        s.id = 0 → ms.length ≤ 2147483647 →
        (runCalls s ms t).2.Pairwise (· < ·)
        ∧ (runCalls s ms t).2.Pairwise (· ≠ ·)) := by
  refine ⟨by rw [callBytes_state], by rw [Call_state],
    by rw [CallWithError_state, Call_state], by rw [CallWithErrorParse_state], ?_⟩
  intro ms s h0 hlen
  have h := runCalls_ids t ms s (by omega) (by omega)
  exact ⟨h.2, h.2.imp (fun hlt => ne_of_lt hlt)⟩

/-- C8 witness: three calls from a fresh client — one of them failing to
marshal, all failing at the transport — still get ids 1, 2, 3. -/
theorem C8_witness :
    (runCalls apiTok [("host.get", .json .null), ("item.get", .unserializable),
        ("user.login", .json .null)] tDown).2 = [1, 2, 3]
    ∧ (runCalls apiTok [("host.get", .json .null), ("item.get", .unserializable),
        ("user.login", .json .null)] tDown).2.Pairwise (· < ·) := by
  have h := (C8_correlation_ids apiTok "m" (GoParams.json Json.null) tDown numDecode).2.2.2.2
    [("host.get", .json .null), ("item.get", .unserializable), ("user.login", .json .null)]
    apiTok rfl (by norm_num)
  exact ⟨rfl, h.1⟩

/-- C9: the stored auth token is untouched by the three call variants, by
a `Login` that returns an error, and by `Version` on every exit path. -/
theorem C9_auth_token_frame {α : Type} (api : ApiState) (m u pw : String)
    (p : GoParams) (t : Transport) (d : Json → Option α) :
    (Call api m p t).state.auth = api.auth
    ∧ (CallWithError api m p t).state.auth = api.auth
    ∧ (CallWithErrorParse api m p t d).state.auth = api.auth
    ∧ (∀ e, (Login api u pw t).out = .err e → (Login api u pw t).state.auth = api.auth)
    ∧ (Version api t).state.auth = api.auth := by
  refine ⟨by rw [Call_state], by rw [CallWithError_state, Call_state],
    by rw [CallWithErrorParse_state], ?_, (Version_state_fields api t).1⟩
  intro e h
  cases herr : (CallWithError api "user.login" (loginParams api.version u pw) t).err with
  | some e2 =>
    simp only [Login, herr]
    rw [CallWithError_state, Call_state]
  | none =>
    cases hres : (CallWithError api "user.login"
        (loginParams api.version u pw) t).resp.result <;>
      simp [Login, herr, hres] at h

/-- C9 witness: a failing `Login` and a retried `Version` both leave the
stored token "TOKEN" in place. -/
theorem C9_witness :
    (Login apiTok "u" "p" tApiErr).state.auth = "TOKEN"
    ∧ (Version apiTok tRetry).state.auth = "TOKEN" := by
  have h1 := (C9_auth_token_frame apiTok "m" "u" "p" (GoParams.json Json.null)
    tApiErr numDecode).2.2.2.1 (CallError.api ⟨-32500, "oops", ""⟩) rfl
  have h2 := (C9_auth_token_frame apiTok "m" "u" "p" (GoParams.json Json.null)
    tRetry numDecode).2.2.2.2
  exact ⟨h1, h2⟩

/-- C5: `Version` issues the first `APIInfo.version` call with the auth
token cleared; exactly when that call returns API error -32602 it issues
one second call with the previously active token restored, and the second
call's outcome (string result or error) is what `Version` returns; any
other first-call outcome is returned with no retry. -/
theorem C5_version_negotiation (api : ApiState) (t : Transport) :
    ((Version api t).trace
      = if isInvalidParams (versionFirst api t).err then
          (versionFirst api t).trace ++ (versionSecond api t).trace
        else (versionFirst api t).trace)
    ∧ (∀ r ∈ (versionFirst api t).trace, r.authorization = none)
    ∧ (∀ r ∈ (versionSecond api t).trace,
        r.authorization
          = if api.auth = "" then none else some ("Bearer " ++ api.auth))
    ∧ (isInvalidParams (versionFirst api t).err = true ↔
        ∃ z, (versionFirst api t).err = some (CallError.api z) ∧ z.code = -32602)
    ∧ (isInvalidParams (versionFirst api t).err = true →
        (Version api t).out = versionExtract (versionSecond api t))
    ∧ (isInvalidParams (versionFirst api t).err = false →
        (Version api t).out = versionExtract (versionFirst api t))
    ∧ (∀ (r : CallOut) e, r.err = some e → versionExtract r = .err e)
    ∧ (∀ (r : CallOut) v, r.err = none → r.resp.result = .str v →
        versionExtract r = .ok v) := by
  refine ⟨?_, ?_, ?_, ?_, ?_, ?_, versionExtract_err, versionExtract_ok⟩
  · cases h : isInvalidParams (versionFirst api t).err with
    | true => rw [Version_pos api t h]; simp [h]
    | false => rw [Version_neg api t h]; simp [h]
  · intro r hr
    unfold versionFirst at hr
    rw [CallWithError_trace, Call_trace, callBytes_trace_json] at hr
    simp only [List.mem_singleton] at hr
    subst hr
    rfl
  · intro r hr
    unfold versionSecond at hr
    rw [CallWithError_trace, Call_trace, callBytes_trace_json] at hr
    simp only [List.mem_singleton] at hr
    subst hr
    unfold versionFirst
    rw [CallWithError_state, Call_state]
    rfl
  · cases he : (versionFirst api t).err with
    | none => simp [isInvalidParams]
    | some e =>
      cases e with
      | api z => simp [isInvalidParams, decide_eq_true_iff]
      | marshal => simp [isInvalidParams]
      | transport => simp [isInvalidParams]
      | decode => simp [isInvalidParams]
  · intro h
    rw [Version_pos api t h]
  · intro h
    rw [Version_neg api t h]

/-- C5 witness: against a server that rejects the unauthenticated call
with -32602 and then answers "2.2.0", `Version` returns "2.2.0" and the
wire shows one unauthenticated then one authenticated request. -/
theorem C5_witness :
    (Version apiTok tRetry).out = GoOutcome.ok "2.2.0"
    ∧ (Version apiTok tRetry).trace.map (fun r => r.authorization)
      = [none, some "Bearer TOKEN"] := by
  obtain ⟨-, -, -, -, hpos, -, -, hok⟩ := C5_version_negotiation apiTok tRetry
  refine ⟨?_, rfl⟩
  rw [hpos rfl]
  exact hok _ "2.2.0" rfl rfl

/-- C2 (amended): transport and response-decoding failures surface as
error returns from every public operation; an API error carried in a
well-formed response surfaces as an error return from `CallWithError`,
`CallWithErrorParse`, `Login` and `Version`, while `Call` returns it as
envelope data with a nil error return; none of these failures panics.
But a *successful* response whose result is not a JSON string makes
`Login` and `Version` panic on their `Result.(string)` type assertions,
so the no-panic guarantee holds only for transports whose well-formed
responses carry an error or a string result. -/
theorem C2_error_reporting {α : Type} (api : ApiState) (m u pw : String)
    (j : Json) (t : Transport) (d : Json → Option α)
    (hb : benignResponses t) :
    (Login api u pw t).out ≠ .panicked
    ∧ (Version api t).out ≠ .panicked
    ∧ (∀ t2 : Transport, (∀ req, t2 req = .transportError) →
        (Call api m (.json j) t2).err = some .transport
        ∧ (CallWithError api m (.json j) t2).err = some .transport
        ∧ (CallWithErrorParse api m (.json j) t2 d).out = .error .transport
        ∧ (Login api u pw t2).out = .err .transport
        ∧ (Version api t2).out = .err .transport)
    ∧ (∀ t3 : Transport, (∀ req, t3 req = .body .malformed) →
        (Call api m (.json j) t3).err = some .decode
        ∧ (CallWithError api m (.json j) t3).err = some .decode
        ∧ (CallWithErrorParse api m (.json j) t3 d).out = .error .decode
        ∧ (Login api u pw t3).out = .err .decode
        ∧ (Version api t3).out = .err .decode)
    ∧ (∀ (t4 : Transport) (jr : String) (z : ZError) (res : Option Json) (i : Int),
        (∀ req, t4 req = .body (.envelope jr (some z) res i)) →
        (Call api m (.json j) t4).err = none
        ∧ (Call api m (.json j) t4).resp.error = some z
        ∧ (CallWithError api m (.json j) t4).err = some (.api z)
        ∧ (CallWithErrorParse api m (.json j) t4 d).out = .error (.api z)
        ∧ (Login api u pw t4).out = .err (.api z)
        ∧ (Version api t4).out = .err (.api z)) := by
  refine ⟨?_, ?_, ?_, ?_, ?_⟩
  · intro h
    cases herr : (CallWithError api "user.login" (loginParams api.version u pw) t).err with
    | some e => simp [Login, herr] at h
    | none =>
      obtain ⟨s, hs⟩ := CallWithError_benign api "user.login"
        (loginParams api.version u pw) t hb herr
      simp [Login, herr, hs] at h
  · cases hip : isInvalidParams (versionFirst api t).err with
    | true =>
      rw [Version_pos api t hip]
      exact versionExtract_safe _ (fun he =>
        CallWithError_benign _ "APIInfo.version" (.json (.obj [])) t hb he)
    | false =>
      rw [Version_neg api t hip]
      exact versionExtract_safe _ (fun he =>
        CallWithError_benign _ "APIInfo.version" (.json (.obj [])) t hb he)
  · intro t2 ht
    have hc : ∀ (s : ApiState) (mm : String) (jj : Json),
        (CallWithError s mm (.json jj) t2).err = some .transport := fun s mm jj =>
      CallWithError_err_of_some s mm (.json jj) t2 _ (Call_err_down s mm jj t2 ht)
    obtain ⟨jl, hjl⟩ := loginParams_json api.version u pw
    refine ⟨Call_err_down api m j t2 ht, hc api m j, ?_, ?_, ?_⟩
    · simp only [CallWithErrorParse]
      rw [callBytes_out_json, ht (sentRequest api m j)]
    · exact Login_err api u pw t2 .transport (by rw [hjl]; exact hc api "user.login" jl)
    · exact Version_err api t2 .transport (hc _ "APIInfo.version" (.obj [])) rfl
  · intro t3 ht
    have hc : ∀ (s : ApiState) (mm : String) (jj : Json),
        (CallWithError s mm (.json jj) t3).err = some .decode := fun s mm jj =>
      CallWithError_err_of_some s mm (.json jj) t3 _ (Call_err_malformed s mm jj t3 ht)
    obtain ⟨jl, hjl⟩ := loginParams_json api.version u pw
    refine ⟨Call_err_malformed api m j t3 ht, hc api m j, ?_, ?_, ?_⟩
    · simp only [CallWithErrorParse]
      rw [callBytes_out_json, ht (sentRequest api m j)]
    · exact Login_err api u pw t3 .decode (by rw [hjl]; exact hc api "user.login" jl)
    · exact Version_err api t3 .decode (hc _ "APIInfo.version" (.obj [])) rfl
  · intro t4 jr z res i ht
    have hce : ∀ (s : ApiState) (mm : String) (jj : Json),
        (Call s mm (.json jj) t4).err = none
        ∧ (Call s mm (.json jj) t4).resp.error = some z
        ∧ (CallWithError s mm (.json jj) t4).err = some (.api z) := fun s mm jj =>
      CallWithError_err_apienv s mm jj t4 jr z res i ht
    obtain ⟨jl, hjl⟩ := loginParams_json api.version u pw
    refine ⟨(hce api m j).1, (hce api m j).2.1, (hce api m j).2.2, ?_, ?_, ?_⟩
    · simp only [CallWithErrorParse]
      rw [callBytes_out_json, ht (sentRequest api m j)]
    · exact Login_err api u pw t4 _ (by rw [hjl]; exact (hce api "user.login" jl).2.2)
    · have hfirst : (versionFirst api t4).err = some (.api z) :=
        (hce { api with auth := "" } "APIInfo.version" (Json.obj [])).2.2
      by_cases hz : z.code = -32602
      · have hip : isInvalidParams (versionFirst api t4).err = true := by
          rw [hfirst]
          simp [isInvalidParams, hz]
        rw [Version_pos api t4 hip]
        exact versionExtract_err _ _
          ((hce { (versionFirst api t4).state with auth := api.auth }
            "APIInfo.version" (Json.obj [])).2.2)
      · exact Version_err api t4 _ hfirst (by simp [isInvalidParams, hz])

/-- C2 (counterexample): a well-formed success response whose result is
the number 42 makes both `Login` and `Version` hit the
`response.Result.(string)` type assertion and panic, refuting the claim
that no protocol-level input can cause a panic; and on an API-error
response `Call`'s error return is nil, refuting the claim that every
public operation returns an error value for an API error. -/
theorem C2_counterexample :
    (Login apiTok "u" "p" tNum).out = GoOutcome.panicked
    ∧ (Version apiTok tNum).out = GoOutcome.panicked
    ∧ (Call apiTok "host.get" (GoParams.json Json.null) tApiErr).err = none
    ∧ (Call apiTok "host.get" (GoParams.json Json.null) tApiErr).resp.error
        = some ⟨-32500, "oops", ""⟩ :=
  ⟨rfl, rfl, rfl, rfl⟩

/-- C2 witness: against a benign server answering the string "6.4.0",
`Login` does not panic. -/
theorem C2_witness :
    benignResponses tStr ∧ (Login apiTok "u" "p" tStr).out ≠ GoOutcome.panicked := by
  have hb : benignResponses tStr := by
    intro req jr err res i h
    simp only [tStr] at h
    cases h
    exact Or.inr ⟨"6.4.0", rfl⟩
  exact ⟨hb, (C2_error_reporting apiTok "m" "u" "p"
    Json.null tStr numDecode hb).1⟩

/-- C10: when version negotiation fails (the version call errors, or the
version string does not parse), `NewAPI` returns a non-nil partially
constructed object together with the error, its version field still the
(zero) value supplied in the config. -/
theorem C10_newapi_nonnil (c : Config) (t : Transport) (h0 : c.version = 0) :
    (∀ e, (Version (initialApi c) t).out = .err e →
        NewAPI c t = .ret (some ((Version (initialApi c) t).state))
          (some (.call e))
        ∧ (Version (initialApi c) t).state.version = 0)
    ∧ (∀ vs, (Version (initialApi c) t).out = .ok vs →
        parseVersionString vs = none →
        NewAPI c t = .ret (some ((Version (initialApi c) t).state)) (some .parse)
        ∧ (Version (initialApi c) t).state.version = 0) := by
  have hver : (Version (initialApi c) t).state.version = 0 := by
    rw [(Version_state_fields (initialApi c) t).2]
    simp [initialApi, h0]
  constructor
  · intro e h
    exact ⟨by simp [NewAPI, h], hver⟩
  · intro vs h hparse
    exact ⟨by simp [NewAPI, h, hparse], hver⟩

/-- C10 witness: with a dead transport, `NewAPI` returns the allocated
object and a transport error, version field still zero. -/
theorem C10_witness :
    NewAPI ⟨"u", false, false, 0⟩ tDown
      = .ret (some ((Version (initialApi ⟨"u", false, false, 0⟩) tDown).state))
          (some (NewAPIError.call CallError.transport))
    ∧ (Version (initialApi ⟨"u", false, false, 0⟩) tDown).state.version = 0 :=
  (C10_newapi_nonnil ⟨"u", false, false, 0⟩ tDown rfl).1 CallError.transport rfl

end Zabbix
